import Mathlib

/-!
Verification of the grplot data-windowing and spectral pipeline.

Shallow embedding of `src/grplot/__init__.py` (class `DataSource`, the
spectral refresh methods of `PlottingWidget`, and the numpy/scipy library
calls they make).  Machine integers are modelled as `Int`/`Nat` (Python
integers are unbounded), sample rates and frequencies as `ℚ` (the claims
under study never depend on floating-point rounding), and file contents as
lists of bytes (`List ℕ`): decoding bytes into `complex64` values is a
bijection on 8-byte chunks that no property below observes, so the buffer
is kept as the list of raw records (each record = its list of bytes).
-/

namespace Grplot

/-- The element types offered by the UI combo box (`FileSettingsWidget`).
`DataSource` only ever uses `complex64` (hard-coded in `__init__`). -/
inductive DType where
  | complex64 | complex128
  | float32 | float64
  | int8 | int16 | int32 | int64
  | uint8 | uint16 | uint32 | uint64
  deriving DecidableEq, Repr

/-- Value of `numpy.dtype(t).itemsize` for each supported element type. -/
def DType.itemsize : DType → ℕ
  | .complex64 => 8
  | .complex128 => 16
  | .float32 => 4
  | .float64 => 8
  | .int8 => 1
  | .int16 => 2
  | .int32 => 4
  | .int64 => 8
  | .uint8 => 1
  | .uint16 => 2
  | .uint32 => 4
  | .uint64 => 8

/-- State of a `DataSource` object.  `data` is the decoded sample buffer,
kept as the list of raw fixed-width records (`none` models Python `None`);
`start`/`end_` are the `_start`/`_end` window bounds (Python ints, so `ℤ`). -/
structure DataSource where
  dataType : DType
  source_path : Option String
  data : Option (List (List ℕ))
  start : ℤ
  end_ : ℤ
  deriving DecidableEq, Repr

/-- State of `DataSource()` constructed without a path: `_data_type = numpy.complex64`,
`source_path = None`, `data = None`, `_start = 0`, `_end = 0`. -/
def DataSource.fresh : DataSource :=
  { dataType := .complex64, source_path := none, data := none,
    start := 0, end_ := 0 }

/-- The filesystem: maps a path to the file's bytes, `none` when opening
the file raises `IOError`. -/
def FS : Type := String → Option (List ℕ)

/-- The failures `load_file`/`reload_file` can raise.
* `ioError` — `open(path)` fails (missing/unreadable file), or a negative
  seek offset raises `OSError`;
* `insufficientData` — the `raise Exception('File is too short...')` in
  `_file_range` when the file holds no complete record;
* `noSourceConfigured` — the `TypeError` raised by `open(None, 'rb')` when
  `reload_file` runs with `source_path` still `None`. -/
inductive LoadError where
  | ioError
  | insufficientData
  | noSourceConfigured
  deriving DecidableEq, Repr

/-- Model of `DataSource._file_range(file_len, full_scale)`: truncate a trailing
partial record, compute `data_len`, fail on an empty record count, and
otherwise resolve the window (full scale, or the stored bounds clamped). -/
def fileRange (ds : DataSource) (fileLen : ℕ) (fullScale : Bool) :
    Except LoadError (ℤ × ℤ) :=
  let dataSize := ds.dataType.itemsize
  let remainderBytes := fileLen % dataSize
  let fileLen2 := fileLen - remainderBytes
  let dataLen : ℕ := fileLen2 / dataSize
  if dataLen = 0 then
    .error .insufficientData
  else if fullScale then
    .ok (0, (dataLen : ℤ))
  else
    let newStart : ℤ := if ds.start ≥ (dataLen : ℤ) then (dataLen : ℤ) - 1 else ds.start
    let newEnd : ℤ := if ds.end_ > (dataLen : ℤ) then (dataLen : ℤ) else ds.end_
    .ok (newStart, newEnd)

/-- Model of `numpy.fromfile(f, dtype, count)` after `f.seek(offset)`: reads up to
`count` whole records of `itemsize` bytes from `offset`; a *negative*
`count` (numpy's `-1` convention, which its C implementation applies to any
negative value) reads every remaining whole record to end of file. -/
def fromfile (bytes : List ℕ) (itemsize : ℕ) (offset : ℕ) (count : ℤ) :
    List (List ℕ) :=
  let remaining := bytes.drop offset
  let avail := remaining.length / itemsize
  let n := if count < 0 then avail else min count.toNat avail
  (List.range n).map fun i => (remaining.drop (i * itemsize)).take itemsize

/-- Model of `DataSource.load_file(path, reset)`.  Returns the post-call object state
together with the raised error, if any.  Python mutates `self.data`,
`self._start`, `self._end`, `self.source_path` only after every fallible
step (`open`, `fstat`, `_file_range`, `seek`, `fromfile`) has succeeded, so
on failure the state is the unchanged input.  `path = none` models
`load_file(None, ...)` (only reachable through `reload_file`), where
`open(None, 'rb')` raises before anything else happens. -/
def loadFile (fs : FS) (ds : DataSource) (path : Option String)
    (reset : Bool) : DataSource × Option LoadError :=
  match path with
  | none => (ds, some .noSourceConfigured)
  | some p =>
    match fs p with
    | none => (ds, some .ioError)
    | some bytes =>
      match fileRange ds bytes.length reset with
      | .error e => (ds, some e)
      | .ok (newStart, newEnd) =>
        let dataSize := ds.dataType.itemsize
        let offset := newStart * (dataSize : ℤ)
        if offset < 0 then
          (ds, some .ioError)
        else
          ({ ds with
              data := some (fromfile bytes dataSize offset.toNat (newEnd - newStart)),
              start := newStart, end_ := newEnd, source_path := some p },
           none)

/-- Model of `DataSource.reload_file()`: `self.load_file(self.source_path)` with the
default `reset=False`. -/
def reloadFile (fs : FS) (ds : DataSource) : DataSource × Option LoadError :=
  loadFile fs ds ds.source_path false

/-- The `start` property setter: store the new value, `reload_file()`, and
on any exception restore the old `_start` and re-raise. -/
def setStart (fs : FS) (ds : DataSource) (value : ℤ) :
    DataSource × Option LoadError :=
  let ds1 := { ds with start := value }
  match reloadFile fs ds1 with
  | (ds2, some e) => ({ ds2 with start := ds.start }, some e)
  | (ds2, none) => (ds2, none)

/-- The `end` property setter: store the new value, `reload_file()`, and
on any exception restore the old `_end` and re-raise. -/
def setEnd (fs : FS) (ds : DataSource) (value : ℤ) :
    DataSource × Option LoadError :=
  let ds1 := { ds with end_ := value }
  match reloadFile fs ds1 with
  | (ds2, some e) => ({ ds2 with end_ := ds.end_ }, some e)
  | (ds2, none) => (ds2, none)

/-- Model of `numpy.linspace(a, b, n, endpoint=True)` over exact rationals: `n`
evenly spaced points from `a` to `b` inclusive; `n = 0` gives the empty
sequence and `n = 1` gives `[a]`, with no division performed. -/
def linspace (a b : ℚ) (n : ℕ) : List ℚ :=
  if n = 0 then []
  else if n = 1 then [a]
  else (List.range n).map fun (i : ℕ) => a + (i : ℚ) * (b - a) / ((n : ℚ) - 1)

/-- Model of `DataSource.time_range(sample_rate)`: `linspace(start, end, len(data))`
divided elementwise by the sample rate.  `none` when `data` is `None`
(Python would raise `TypeError` on `len(None)`). -/
def timeRange (ds : DataSource) (sampleRate : ℚ) : Option (List ℚ) :=
  ds.data.map fun buf =>
    (linspace (ds.start : ℚ) (ds.end_ : ℚ) buf.length).map (· / sampleRate)

/-- Model of `numpy.fft.fftfreq(n, 1/fs)` (the frequency axis scipy's
`_spectral_helper` attaches to a two-sided spectrum): entry `k` is
`k*fs/n` for `k` below the non-negative half-count `(n+1)/2`, and
`(k-n)*fs/n` for the remaining entries. -/
def fftfreq (n : ℕ) (fs : ℚ) : List ℚ :=
  (List.range n).map fun k =>
    (if k < (n + 1) / 2 then (k : ℚ) else (k : ℚ) - n) * fs / n

/-- Model of `numpy.fft.fftshift` on a 1-D sequence (`axes=0` on a matrix acts the
same way on the outer list): `numpy.roll(x, n//2)`, i.e. the trailing
`n//2` entries move to the front. -/
def fftshift {α : Type} (x : List α) : List α :=
  x.drop (x.length - x.length / 2) ++ x.take (x.length - x.length / 2)

/-- The FFT sizes offered by `FFTSettingsWidget` (`2^7 .. 2^13`). -/
def supportedFFTSizes : List ℕ := [128, 256, 512, 1024, 2048, 4096, 8192]

/-- Failure mode of `scipy.signal.welch`/`spectrogram` relevant here:
`_triage_segments` raises `ValueError('window is longer than input
signal')` when the precomputed taper array is longer than the input
(scipy ≥ 1.0.0, the version `setup.py` requires). -/
inductive ScipyError where
  | windowLongerThanInput
  deriving DecidableEq, Repr

/-- State `PlottingWidget` keeps for the spectral transforms: the FFT size,
the stored taper `self.window` (an array whose only observable feature in
the properties below is its length — every scipy taper generator such as
`signal.windows.blackman(n)` returns exactly `n` coefficients), and the
sample rate.  `__init__` sets `fftsize = 256`, `window = blackman(256)`,
`_sample_rate = 8000`. -/
structure PlotW where
  fftsize : ℕ
  windowLen : ℕ
  sampleRate : ℚ
  deriving DecidableEq, Repr

/-- Defaults set by `PlottingWidget.__init__`. -/
def PlotW.default : PlotW := { fftsize := 256, windowLen := 256, sampleRate := 8000 }

/-- Model of `PlottingWidget.set_fft(size, window)`: stores the size and regenerates
`self.window` as a fresh taper of `size` coefficients. -/
def setFFT (w : PlotW) (size : ℕ) : PlotW :=
  { w with fftsize := size, windowLen := size }

/-- Model of `scipy.signal.welch(x, fs, window, nfft, noverlap=nfft/4,
scaling='density', return_onesided=False)`: validates the taper against
the input length, then returns `(fftfreq(nfft, 1/fs), Pxx)`.  The Welch
power estimate itself is floating-point numerics whose values no claim
inspects; it is passed in as `pow`, with its scipy shape contract
(`pow.length = nfft` for a two-sided spectrum) assumed where needed. -/
def welch (bufLen winLen nfft : ℕ) (fs : ℚ) (pow : List ℚ) :
    Except ScipyError (List ℚ × List ℚ) :=
  if bufLen < winLen then .error .windowLongerThanInput
  else .ok (fftfreq nfft fs, pow)

/-- Model of `scipy.signal.spectrogram(...)` with the same window/nfft/overlap
policy: same validation, returning `(fftfreq(nfft, 1/fs), Sxx)` with the
magnitude matrix indexed `[frequency][time]` (`Sxx.length = nfft` rows is
scipy's shape contract, assumed where needed). -/
def scipySpectrogram (bufLen winLen nfft : ℕ) (fs : ℚ)
    (specPow : List (List ℚ)) :
    Except ScipyError (List ℚ × List (List ℚ)) :=
  if bufLen < winLen then .error .windowLongerThanInput
  else .ok (fftfreq nfft fs, specPow)

/-- Core of `PlottingWidget._refresh_psd_plot`: run `welch`, convert the
power to decibels as `10*log10(abs(p))`, and `fftshift` both the frequency
axis and the magnitude curve.  `log10` is the (floating-point) base-10
logarithm, abstracted as a parameter. -/
def refreshPsd (log10 : ℚ → ℚ) (w : PlotW) (bufLen : ℕ) (pow : List ℚ) :
    Except ScipyError (List ℚ × List ℚ) :=
  match welch bufLen w.windowLen w.fftsize w.sampleRate pow with
  | .error e => .error e
  | .ok (freqSegments, powerD) =>
    let powerDLog := powerD.map fun p => 10 * log10 |p|
    .ok (fftshift freqSegments, fftshift powerDLog)

/-- Core of `PlottingWidget._refresh_spec_plot`: run `spectrogram`,
convert the matrix to decibels elementwise, and `fftshift` the frequency
axis and the matrix along its frequency axis (`axes=0`). -/
def refreshSpec (log10 : ℚ → ℚ) (w : PlotW) (bufLen : ℕ)
    (specPow : List (List ℚ)) :
    Except ScipyError (List ℚ × List (List ℚ)) :=
  match scipySpectrogram bufLen w.windowLen w.fftsize w.sampleRate specPow with
  | .error e => .error e
  | .ok (freqSegments, spec) =>
    let specLog := spec.map fun row => row.map fun p => 10 * log10 |p|
    .ok (fftshift freqSegments, fftshift specLog)

/-- Total number of whole records in a `fileLen`-byte file (what the spec
calls `total_records = floor(byte_length / record_byte_width)`). -/
def totalRecords (ds : DataSource) (fileLen : ℕ) : ℕ :=
  fileLen / ds.dataType.itemsize

/-! Helper lemmas. -/

instance {ε α : Type} [DecidableEq ε] [DecidableEq α] :
    DecidableEq (Except ε α) := fun x y =>
  match x, y with
  | .ok a, .ok b =>
    if h : a = b then isTrue (congrArg Except.ok h)
    else isFalse (fun hh => h (Except.ok.inj hh))
  | .error a, .error b =>
    if h : a = b then isTrue (congrArg Except.error h)
    else isFalse (fun hh => h (Except.error.inj hh))
  | .ok _, .error _ => isFalse (fun hh => Except.noConfusion hh)
  | .error _, .ok _ => isFalse (fun hh => Except.noConfusion hh)

theorem trunc_div (L s : ℕ) : (L - L % s) / s = L / s := by
  rcases Nat.eq_zero_or_pos s with hs | hs
  · subst hs; simp
  · have h := Nat.div_add_mod L s
    have h2 : L - L % s = s * (L / s) := by omega
    rw [h2, Nat.mul_div_cancel_left _ hs]

/-- Closed form of `_file_range` on a file holding at least one record. -/
theorem fileRange_eq (ds : DataSource) (L : ℕ) (b : Bool)
    (h : 0 < totalRecords ds L) :
    fileRange ds L b =
      if b then .ok (0, (totalRecords ds L : ℤ))
      else .ok
        (if (totalRecords ds L : ℤ) ≤ ds.start
           then (totalRecords ds L : ℤ) - 1 else ds.start,
         if (totalRecords ds L : ℤ) < ds.end_
           then (totalRecords ds L : ℤ) else ds.end_) := by
  unfold totalRecords at *
  have hne2 : L / ds.dataType.itemsize ≠ 0 := Nat.pos_iff_ne_zero.mp h
  have hne : (L - L % ds.dataType.itemsize) / ds.dataType.itemsize ≠ 0 := by
    rw [trunc_div]; exact hne2
  simp only [fileRange, trunc_div, hne, hne2, if_false, ge_iff_le, gt_iff_lt]

/-- Shape of a successful `load_file` once `_file_range` has resolved a
window with a non-negative start. -/
theorem loadFile_ok (fs : FS) (ds : DataSource) (p : String)
    (bytes : List ℕ) (reset : Bool) (s e : ℤ) (hfs : fs p = some bytes)
    (hr : fileRange ds bytes.length reset = .ok (s, e)) (hs : 0 ≤ s) :
    loadFile fs ds (some p) reset =
      ({ ds with
          data := some (fromfile bytes ds.dataType.itemsize
            (s * (ds.dataType.itemsize : ℤ)).toNat (e - s)),
          start := s, end_ := e, source_path := some p },
       none) := by
  have hoff : ¬ (s * ((ds.dataType.itemsize : ℕ) : ℤ) < 0) :=
    not_lt.mpr (mul_nonneg hs (by positivity))
  simp [loadFile, hfs, hr, hoff]

/-- Length of the record list returned by `numpy.fromfile`. -/
theorem length_fromfile (bytes : List ℕ) (s off : ℕ) (c : ℤ) :
    (fromfile bytes s off c).length =
      if c < 0 then (bytes.length - off) / s
      else min c.toNat ((bytes.length - off) / s) := by
  unfold fromfile
  by_cases h : c < 0 <;> simp [h, List.length_drop]

/-- When `load_file` raises, the object state is untouched. -/
theorem loadFile_fst_of_err (fs : FS) (ds : DataSource)
    (path : Option String) (reset : Bool) (e : LoadError)
    (h : (loadFile fs ds path reset).2 = some e) :
    (loadFile fs ds path reset).1 = ds := by
  cases path with
  | none => rfl
  | some p =>
    cases hfs : fs p with
    | none => simp [loadFile, hfs]
    | some bytes =>
      cases hr : fileRange ds bytes.length reset with
      | error e' => simp [loadFile, hfs, hr]
      | ok se =>
        obtain ⟨s, e'⟩ := se
        by_cases hoff : s * ((ds.dataType.itemsize : ℕ) : ℤ) < 0
        · simp [loadFile, hfs, hr, hoff]
        · simp [loadFile, hfs, hr, hoff] at h

/-! Claim theorems. -/

/-- C1: on a file holding `total_records > 0` records, `_file_range`
resolves `reset=True` to the full window `[0, total_records)` regardless
of the stored bounds; with `reset=False` the stored bounds are kept,
except that a stored start `≥ total_records` is clamped to
`total_records - 1` and a stored end `> total_records` is clamped to
`total_records`; in particular in-range bounds are preserved unchanged
and a load with them succeeds committing exactly those bounds. -/
theorem c1_range_resolution (fs : FS) (ds : DataSource) (p : String)
    (bytes : List ℕ) (hfs : fs p = some bytes)
    (hpos : 0 < totalRecords ds bytes.length) :
    fileRange ds bytes.length true =
      .ok (0, (totalRecords ds bytes.length : ℤ)) ∧
    fileRange ds bytes.length false =
      .ok (if (totalRecords ds bytes.length : ℤ) ≤ ds.start
             then (totalRecords ds bytes.length : ℤ) - 1 else ds.start,
           if (totalRecords ds bytes.length : ℤ) < ds.end_
             then (totalRecords ds bytes.length : ℤ) else ds.end_) ∧
    (ds.start < (totalRecords ds bytes.length : ℤ) →
     ds.end_ ≤ (totalRecords ds bytes.length : ℤ) →
     fileRange ds bytes.length false = .ok (ds.start, ds.end_)) ∧
    (0 ≤ ds.start →
     ds.start < (totalRecords ds bytes.length : ℤ) →
     ds.end_ ≤ (totalRecords ds bytes.length : ℤ) →
     (loadFile fs ds (some p) false).1.start = ds.start ∧
     (loadFile fs ds (some p) false).1.end_ = ds.end_ ∧
     (loadFile fs ds (some p) false).2 = none) := by
  have h1 := fileRange_eq ds bytes.length true hpos
  have h2 := fileRange_eq ds bytes.length false hpos
  simp only [if_true, if_false, Bool.false_eq_true] at h1 h2
  refine ⟨h1, h2, ?_, ?_⟩
  · intro hlt hle
    rw [h2, if_neg (not_le.mpr hlt), if_neg (not_lt.mpr hle)]
  · intro h0 hlt hle
    have hr : fileRange ds bytes.length false = .ok (ds.start, ds.end_) := by
      rw [h2, if_neg (not_le.mpr hlt), if_neg (not_lt.mpr hle)]
    rw [loadFile_ok fs ds p bytes false ds.start ds.end_ hfs hr h0]
    exact ⟨rfl, rfl, rfl⟩

/-- Witness for C1: the stored window `[10, 20)` over a 100-record
(800-byte) `complex64` file is preserved by `load(path, reset=False)`. -/
theorem c1_range_resolution_witness :
    ((fun _ => some (List.replicate 800 0) : FS) "f" = some (List.replicate 800 0) ∧
     0 < totalRecords { DataSource.fresh with start := 10, end_ := 20 }
           (List.replicate 800 0).length) ∧
    fileRange { DataSource.fresh with start := 10, end_ := 20 }
        (List.replicate 800 0).length false = .ok (10, 20) := by
  refine ⟨⟨rfl, by norm_num [totalRecords, DataSource.fresh, DType.itemsize]⟩, ?_⟩
  have h := (c1_range_resolution (fun _ => some (List.replicate 800 0))
      { DataSource.fresh with start := 10, end_ := 20 } "f"
      (List.replicate 800 0) rfl
      (by norm_num [totalRecords, DataSource.fresh, DType.itemsize])).2.2.1
    (by norm_num [totalRecords, DataSource.fresh, DType.itemsize])
    (by norm_num [totalRecords, DataSource.fresh, DType.itemsize])
  exact h

/-- C3: a file shorter than one record (`total_records = 0` after
truncation) makes `load_file` fail with the insufficient-data error, and
the failed load leaves `source_path`, the window bounds and the sample
buffer exactly as they were. -/
theorem c3_short_file_insufficient (fs : FS) (ds : DataSource) (p : String)
    (bytes : List ℕ) (reset : Bool) (hfs : fs p = some bytes)
    (hshort : bytes.length < ds.dataType.itemsize) :
    loadFile fs ds (some p) reset = (ds, some .insufficientData) := by
  have hr : fileRange ds bytes.length reset = .error .insufficientData := by
    have hz : (bytes.length - bytes.length % ds.dataType.itemsize) /
        ds.dataType.itemsize = 0 := by
      rw [Nat.mod_eq_of_lt hshort]; simp
    simp [fileRange, hz]
  simp [loadFile, hfs, hr]

/-- Witness for C3: a 3-byte file (shorter than the 8-byte `complex64`
record) fails with `insufficientData` and leaves the state unchanged. -/
theorem c3_short_file_insufficient_witness :
    ((fun _ => some [1, 2, 3] : FS) "f" = some [1, 2, 3] ∧
     ([1, 2, 3] : List ℕ).length < DataSource.fresh.dataType.itemsize) ∧
    loadFile (fun _ => some [1, 2, 3]) DataSource.fresh (some "f") true =
      (DataSource.fresh, some .insufficientData) :=
  ⟨⟨rfl, by decide⟩,
   c3_short_file_insufficient (fun _ => some [1, 2, 3]) DataSource.fresh
     "f" [1, 2, 3] true rfl (by decide)⟩

/-- C5: `reload_file` on a source that has never successfully loaded a
path (`source_path` absent) fails loudly — modelled as the
`noSourceConfigured` error raised by `open(None)` — and does not touch the
state. -/
theorem c5_reload_without_source (fs : FS) (ds : DataSource)
    (h : ds.source_path = none) :
    reloadFile fs ds = (ds, some .noSourceConfigured) := by
  unfold reloadFile
  rw [h]
  rfl

/-- Witness for C5: a freshly constructed `DataSource` has no source path
and `reload_file` fails with `noSourceConfigured`. -/
theorem c5_reload_without_source_witness :
    DataSource.fresh.source_path = none ∧
    reloadFile (fun _ => some []) DataSource.fresh =
      (DataSource.fresh, some .noSourceConfigured) :=
  ⟨rfl, c5_reload_without_source (fun _ => some []) DataSource.fresh rfl⟩

/-- C6: when the byte length is not an exact multiple of the record width
the excess trailing bytes are dropped — `total_records` is the floor of
`byte_length / record_byte_width` — and as long as at least one whole
record remains the load never fails for this reason: `_file_range`
resolves for either `reset` value, and a full-scale load succeeds with
`window_end = total_records` and a buffer of `total_records` records. -/
theorem c6_trailing_bytes_truncated (fs : FS) (ds : DataSource)
    (p : String) (bytes : List ℕ) (hfs : fs p = some bytes)
    (hpos : 0 < totalRecords ds bytes.length) :
    (∀ reset : Bool, ∃ w, fileRange ds bytes.length reset = .ok w) ∧
    fileRange ds bytes.length true =
      .ok (0, (totalRecords ds bytes.length : ℤ)) ∧
    (loadFile fs ds (some p) true).2 = none ∧
    (loadFile fs ds (some p) true).1.start = 0 ∧
    (loadFile fs ds (some p) true).1.end_ = (totalRecords ds bytes.length : ℤ) ∧
    (loadFile fs ds (some p) true).1.data.map List.length =
      some (totalRecords ds bytes.length) := by
  have h1 := fileRange_eq ds bytes.length true hpos
  have h2 := fileRange_eq ds bytes.length false hpos
  simp only [if_true, if_false, Bool.false_eq_true] at h1 h2
  have hload := loadFile_ok fs ds p bytes true 0
    (totalRecords ds bytes.length : ℤ) hfs h1 le_rfl
  refine ⟨?_, h1, ?_⟩
  · intro reset
    cases reset
    · exact ⟨_, h2⟩
    · exact ⟨_, h1⟩
  · rw [hload]
    refine ⟨rfl, rfl, rfl, ?_⟩
    have hlen : (fromfile bytes ds.dataType.itemsize
        ((0 : ℤ) * ((ds.dataType.itemsize : ℕ) : ℤ)).toNat
        ((totalRecords ds bytes.length : ℤ) - 0)).length =
        totalRecords ds bytes.length := by
      rw [zero_mul, Int.toNat_zero, sub_zero, length_fromfile,
        if_neg (not_lt.mpr (Int.natCast_nonneg _)), Int.toNat_natCast,
        Nat.sub_zero]
      exact min_self _
    exact congrArg some hlen

/-- Witness for C6: a file of 10 `complex64` records plus one trailing
byte (81 bytes) loads with `total_records = 10`, no error. -/
theorem c6_trailing_bytes_truncated_witness :
    ((fun _ => some (List.replicate 81 0) : FS) "f" = some (List.replicate 81 0) ∧
     0 < totalRecords DataSource.fresh (List.replicate 81 0).length) ∧
    (loadFile (fun _ => some (List.replicate 81 0)) DataSource.fresh
        (some "f") true).2 = none ∧
    (loadFile (fun _ => some (List.replicate 81 0)) DataSource.fresh
        (some "f") true).1.end_ = 10 := by
  have h := c6_trailing_bytes_truncated (fun _ => some (List.replicate 81 0))
    DataSource.fresh "f" (List.replicate 81 0) rfl (by decide)
  exact ⟨⟨rfl, by decide⟩, h.2.2.1, by rw [h.2.2.2.2.1]; decide⟩

/-- C2: the `start`/`end` property setters first store the new bound and
then reload; when the reload raises, the bound is restored to its exact
prior value and the error is re-raised, so after a failed setter the
object state (`start`, `end_`, `data`, `source_path`) is identical to the
state before the call. -/
theorem c2_setter_rollback (fs : FS) (ds : DataSource) (v : ℤ)
    (e : LoadError) :
    ((setStart fs ds v).2 = some e →
      (setStart fs ds v).1 = ds ∧
      (loadFile fs { ds with start := v } ds.source_path false).2 = some e) ∧
    ((setEnd fs ds v).2 = some e →
      (setEnd fs ds v).1 = ds ∧
      (loadFile fs { ds with end_ := v } ds.source_path false).2 = some e) := by
  constructor
  · intro h
    rcases hr : loadFile fs { ds with start := v } ds.source_path false
      with ⟨ds2, oe⟩
    cases oe with
    | none =>
      have hs : setStart fs ds v = (ds2, none) := by
        simp only [setStart, reloadFile]
        rw [hr]
      rw [hs] at h
      simp at h
    | some e' =>
      have hs : setStart fs ds v = ({ ds2 with start := ds.start }, some e') := by
        simp only [setStart, reloadFile]
        rw [hr]
      have h2 : (loadFile fs { ds with start := v } ds.source_path false).2 =
          some e' := by rw [hr]
      have h1 := loadFile_fst_of_err fs { ds with start := v }
        ds.source_path false e' h2
      have hds2 : ds2 = { ds with start := v } := by
        rw [show ds2 = (loadFile fs { ds with start := v }
          ds.source_path false).1 from by rw [hr]]
        exact h1
      subst hds2
      have he : e' = e := by rw [hs] at h; simpa using h
      subst he
      refine ⟨?_, ?_⟩
      · rw [hs]
      · rfl
  · intro h
    rcases hr : loadFile fs { ds with end_ := v } ds.source_path false
      with ⟨ds2, oe⟩
    cases oe with
    | none =>
      have hs : setEnd fs ds v = (ds2, none) := by
        simp only [setEnd, reloadFile]
        rw [hr]
      rw [hs] at h
      simp at h
    | some e' =>
      have hs : setEnd fs ds v = ({ ds2 with end_ := ds.end_ }, some e') := by
        simp only [setEnd, reloadFile]
        rw [hr]
      have h2 : (loadFile fs { ds with end_ := v } ds.source_path false).2 =
          some e' := by rw [hr]
      have h1 := loadFile_fst_of_err fs { ds with end_ := v }
        ds.source_path false e' h2
      have hds2 : ds2 = { ds with end_ := v } := by
        rw [show ds2 = (loadFile fs { ds with end_ := v }
          ds.source_path false).1 from by rw [hr]]
        exact h1
      subst hds2
      have he : e' = e := by rw [hs] at h; simpa using h
      subst he
      refine ⟨?_, ?_⟩
      · rw [hs]
      · rfl

/-- Witness for C2: setting `start := 7` (resp. `end := 7`) on a source
whose reload fails (no file ever loaded) re-raises the error and leaves
the state exactly as before the call. -/
theorem c2_setter_rollback_witness :
    ((setStart (fun _ => none) { DataSource.fresh with start := 3 } 7).2 =
        some .noSourceConfigured ∧
      (setEnd (fun _ => none) { DataSource.fresh with end_ := 3 } 7).2 =
        some .noSourceConfigured) ∧
    (setStart (fun _ => none) { DataSource.fresh with start := 3 } 7).1 =
      { DataSource.fresh with start := 3 } ∧
    (setEnd (fun _ => none) { DataSource.fresh with end_ := 3 } 7).1 =
      { DataSource.fresh with end_ := 3 } := by
  have h1 := (c2_setter_rollback (fun _ => none)
    { DataSource.fresh with start := 3 } 7 .noSourceConfigured).1 (by decide)
  have h2 := (c2_setter_rollback (fun _ => none)
    { DataSource.fresh with end_ := 3 } 7 .noSourceConfigured).2 (by decide)
  exact ⟨⟨by decide, by decide⟩, h1.1, h2.1⟩

set_option maxRecDepth 8192 in
/-- C4 counterexample: a stored inverted window `[10, 5)` over a
20-record (160-byte) file resolves unchanged under `reset=False`, and the
load with `window_start > window_end` completes with **no** error — the
negative `fromfile` count reads the remaining 10 records — instead of
being surfaced as a distinct error. -/
theorem c4_counterexample :
    fileRange { DataSource.fresh with start := 10, end_ := 5 }
      (List.replicate 160 0).length false = .ok (10, 5) ∧
    (loadFile (fun _ => some (List.replicate 160 0))
      { DataSource.fresh with start := 10, end_ := 5 } (some "f") false).2 =
      none ∧
    (loadFile (fun _ => some (List.replicate 160 0))
      { DataSource.fresh with start := 10, end_ := 5 } (some "f")
        false).1.data.map List.length = some 10 := by
  refine ⟨by decide, by decide, by decide⟩

/-- C4 (amended): a load under `reset=False` whose resolved bounds are
inverted (`window_start > window_end`) is *not* surfaced as an error: the
record count passed to `numpy.fromfile` is negative, which numpy treats
as "read everything that remains", so the load completes successfully,
commits the inverted bounds, and stores a buffer of
`total_records - window_start` records. -/
theorem c4_inverted_window_reads_rest (fs : FS) (ds : DataSource)
    (p : String) (bytes : List ℕ) (s e : ℤ) (hfs : fs p = some bytes)
    (hr : fileRange ds bytes.length false = .ok (s, e))
    (hinv : e < s) (hs : 0 ≤ s) :
    (loadFile fs ds (some p) false).2 = none ∧
    (loadFile fs ds (some p) false).1.start = s ∧
    (loadFile fs ds (some p) false).1.end_ = e ∧
    (loadFile fs ds (some p) false).1.data.map List.length =
      some (totalRecords ds bytes.length - s.toNat) := by
  have hpos : 0 < totalRecords ds bytes.length := by
    by_contra h0
    have hz : totalRecords ds bytes.length = 0 := by omega
    unfold totalRecords at hz
    have hz2 : (bytes.length - bytes.length % ds.dataType.itemsize) /
        ds.dataType.itemsize = 0 := by rw [trunc_div]; exact hz
    simp [fileRange, hz2] at hr
  have hsize : 0 < ds.dataType.itemsize := by
    rcases Nat.eq_zero_or_pos ds.dataType.itemsize with h0 | h0
    · exfalso; unfold totalRecords at hpos; rw [h0] at hpos; simp at hpos
    · exact h0
  -- the resolved start is always below `total_records`
  have hsN : s < (totalRecords ds bytes.length : ℤ) := by
    rw [fileRange_eq ds bytes.length false hpos] at hr
    simp only [Bool.false_eq_true, if_false, Except.ok.injEq, Prod.mk.injEq] at hr
    obtain ⟨hr1, _⟩ := hr
    by_cases hc : (totalRecords ds bytes.length : ℤ) ≤ ds.start
    · rw [if_pos hc] at hr1; omega
    · rw [if_neg hc] at hr1; omega
  have hload := loadFile_ok fs ds p bytes false s e hfs hr hs
  rw [hload]
  refine ⟨rfl, rfl, rfl, ?_⟩
  have hk : s = (s.toNat : ℤ) := (Int.toNat_of_nonneg hs).symm
  have hoff : (s * ((ds.dataType.itemsize : ℕ) : ℤ)).toNat =
      s.toNat * ds.dataType.itemsize := by
    conv_lhs => rw [hk]
    rw [← Nat.cast_mul, Int.toNat_natCast]
  have hcount : e - s < 0 := by omega
  have hkN : s.toNat < totalRecords ds bytes.length := by omega
  have hmul : ds.dataType.itemsize * s.toNat ≤ bytes.length := by
    have h1 : s.toNat ≤ bytes.length / ds.dataType.itemsize := le_of_lt hkN
    calc ds.dataType.itemsize * s.toNat
        ≤ ds.dataType.itemsize * (bytes.length / ds.dataType.itemsize) :=
          Nat.mul_le_mul_left _ h1
      _ ≤ bytes.length := Nat.mul_div_le bytes.length ds.dataType.itemsize
  have hlen : (fromfile bytes ds.dataType.itemsize
      (s * ((ds.dataType.itemsize : ℕ) : ℤ)).toNat (e - s)).length =
      totalRecords ds bytes.length - s.toNat := by
    rw [hoff, length_fromfile, if_pos hcount, Nat.mul_comm s.toNat _,
      Nat.sub_mul_div bytes.length ds.dataType.itemsize s.toNat hmul]
    rfl
  exact congrArg some hlen

set_option maxRecDepth 8192 in
/-- Witness for C4 (amended): the inverted window `[10, 5)` over a
20-record file loads without error with a 10-record buffer. -/
theorem c4_inverted_window_reads_rest_witness :
    ((fun _ => some (List.replicate 160 0) : FS) "g" =
        some (List.replicate 160 0) ∧
      (5 : ℤ) < 10 ∧ (0 : ℤ) ≤ 10) ∧
    (loadFile (fun _ => some (List.replicate 160 0))
      { DataSource.fresh with start := 10, end_ := 5 } (some "g")
        false).1.data.map List.length = some 10 := by
  have h := (c4_inverted_window_reads_rest (fun _ => some (List.replicate 160 0))
    { DataSource.fresh with start := 10, end_ := 5 } "g"
    (List.replicate 160 0) 10 5 rfl (by decide) (by decide) (by decide)).2.2.2
  exact ⟨⟨rfl, by decide, by decide⟩, by rw [h]; decide⟩

theorem linspace_length (a b : ℚ) (n : ℕ) : (linspace a b n).length = n := by
  unfold linspace
  rcases n with _ | _ | k
  · rfl
  · rfl
  · rw [if_neg (by omega), if_neg (by omega), List.length_map,
      List.length_range]

theorem linspace_getElem (a b : ℚ) (n i : ℕ) (h2 : 2 ≤ n) (hi : i < n) :
    (linspace a b n)[i]? = some (a + i * (b - a) / ((n : ℚ) - 1)) := by
  unfold linspace
  rw [if_neg (by omega), if_neg (by omega), List.getElem?_map,
    List.getElem?_range hi]
  rfl

/-- C7: for a loaded source and a positive sample rate, `time_range`
produces a sequence of exactly `len(sample_buffer)` evenly spaced
timestamps (also for buffer lengths 0 and 1, with no division error),
starting at `window_start / sample_rate`, ending at
`window_end / sample_rate`, with constant step
`(window_end - window_start) / ((len - 1) * sample_rate)`. -/
theorem c7_time_axis (ds : DataSource) (rate : ℚ) (buf : List (List ℕ))
    (hd : ds.data = some buf) (hrate : 0 < rate) :
    ∃ t, timeRange ds rate = some t ∧
      t.length = buf.length ∧
      (buf.length = 0 → t = []) ∧
      (buf.length = 1 → t = [(ds.start : ℚ) / rate]) ∧
      (2 ≤ buf.length →
        (∀ i, i < buf.length →
          t[i]? = some ((ds.start : ℚ) / rate +
            i * (((ds.end_ : ℚ) - (ds.start : ℚ)) /
              (((buf.length : ℚ) - 1) * rate)))) ∧
        t.head? = some ((ds.start : ℚ) / rate) ∧
        t.getLast? = some ((ds.end_ : ℚ) / rate)) := by
  refine ⟨(linspace (ds.start : ℚ) (ds.end_ : ℚ) buf.length).map (· / rate),
    ?_, ?_, ?_, ?_, ?_⟩
  · unfold timeRange
    rw [hd]
    rfl
  · rw [List.length_map, linspace_length]
  · intro h0
    rw [h0]
    rfl
  · intro h1
    rw [h1]
    rfl
  · intro h2
    have hne : ((buf.length : ℚ) - 1) ≠ 0 := by
      have : (2 : ℚ) ≤ (buf.length : ℚ) := by exact_mod_cast h2
      intro hc
      nlinarith
    have hr0 : rate ≠ 0 := ne_of_gt hrate
    have key : ∀ i, i < buf.length →
        ((linspace (ds.start : ℚ) (ds.end_ : ℚ) buf.length).map
          (· / rate))[i]? = some ((ds.start : ℚ) / rate +
            i * (((ds.end_ : ℚ) - (ds.start : ℚ)) /
              (((buf.length : ℚ) - 1) * rate))) := by
      intro i hi
      rw [List.getElem?_map, linspace_getElem _ _ _ _ h2 hi]
      refine congrArg some ?_
      field_simp
      ring
    refine ⟨key, ?_, ?_⟩
    · rw [List.head?_eq_getElem?, key 0 (by omega)]
      simp
    · rw [List.getLast?_eq_getElem?, List.length_map, linspace_length,
        key (buf.length - 1) (by omega)]
      congr 1
      have hcast : ((buf.length - 1 : ℕ) : ℚ) = (buf.length : ℚ) - 1 := by
        have : 1 ≤ buf.length := by omega
        push_cast [this]
        ring
      rw [hcast]
      field_simp
      ring

/-- Witness for C7: a 5-record buffer over window `[0, 4]` at rate 2
yields a 5-point time axis. -/
theorem c7_time_axis_witness :
    ({ DataSource.fresh with
        start := 0, end_ := 4,
        data := some (List.replicate 5 [0]) } : DataSource).data =
      some (List.replicate 5 [0]) ∧ (0 : ℚ) < 2 ∧
    (∃ t, timeRange
      { DataSource.fresh with
        start := 0, end_ := 4,
        data := some (List.replicate 5 [0]) } 2 = some t ∧ t.length = 5) := by
  have h := c7_time_axis
    { DataSource.fresh with
      start := 0, end_ := 4,
      data := some (List.replicate 5 [0]) } 2 (List.replicate 5 [0])
    rfl (by norm_num)
  obtain ⟨t, ht1, ht2, _⟩ := h
  exact ⟨rfl, by norm_num, ⟨t, ht1, by rw [ht2]; rfl⟩⟩

theorem length_fftfreq (n : ℕ) (fs : ℚ) : (fftfreq n fs).length = n := by
  unfold fftfreq
  rw [List.length_map, List.length_range]

theorem length_fftshift {α : Type} (x : List α) :
    (fftshift x).length = x.length := by
  unfold fftshift
  rw [List.length_append, List.length_drop, List.length_take]
  omega

theorem fftshift_map {α β : Type} (f : α → β) (x : List α) :
    fftshift (x.map f) = (fftshift x).map f := by
  unfold fftshift
  simp [List.map_drop, List.map_take]

theorem fftfreq_getElem (n k : ℕ) (fs : ℚ) (h : k < n) :
    (fftfreq n fs)[k]? =
      some ((if k < (n + 1) / 2 then (k : ℚ) else (k : ℚ) - n) * fs / n) := by
  unfold fftfreq
  rw [List.getElem?_map, List.getElem?_range h]
  rfl

/-- For an even FFT size the shifted frequency axis is
`[-m, -m+1, ..., -1, 0, 1, ..., m-1]` scaled by `fs / n`. -/
theorem fftshift_fftfreq_even (n m : ℕ) (hm : n = 2 * m) (fs : ℚ) :
    fftshift (fftfreq n fs) =
      (List.range n).map fun (i : ℕ) => ((i : ℚ) - m) * fs / n := by
  have hhalf : n / 2 = m := by omega
  have hhalfup : (n + 1) / 2 = m := by omega
  apply List.ext_getElem?
  intro i
  by_cases hi : i < n
  · have hlfreq : (fftfreq n fs).length = n := length_fftfreq n fs
    unfold fftshift
    rw [hlfreq, hhalf]
    have hldrop : ((fftfreq n fs).drop (n - m)).length = m := by
      rw [List.length_drop, hlfreq]; omega
    by_cases him : i < m
    · rw [List.getElem?_append_left (by rw [hldrop]; exact him),
        List.getElem?_drop, fftfreq_getElem n (n - m + i) fs (by omega),
        List.getElem?_map, List.getElem?_range hi]
      have hcond : ¬ (n - m + i < (n + 1) / 2) := by omega
      rw [if_neg hcond]
      have hval : ((n - m + i : ℕ) : ℚ) - (n : ℕ) = (i : ℚ) - (m : ℕ) := by
        have h1 : n - m + i = m + i := by omega
        rw [h1, hm]
        push_cast
        ring
      rw [hval]
      rfl
    · rw [List.getElem?_append_right (by rw [hldrop]; omega), hldrop,
        List.getElem?_take_of_lt (show i - m < n - m by omega),
        fftfreq_getElem n (i - m) fs (by omega),
        List.getElem?_map, List.getElem?_range hi]
      have hcond : i - m < (n + 1) / 2 := by omega
      rw [if_pos hcond]
      have hval : ((i - m : ℕ) : ℚ) = (i : ℚ) - (m : ℕ) := by
        have h1 : m ≤ i := by omega
        push_cast [h1]
        ring
      rw [hval]
      rfl
  · rw [List.getElem?_eq_none (by rw [length_fftshift, length_fftfreq]; omega),
      List.getElem?_eq_none (by rw [List.length_map, List.length_range]; omega)]

theorem fftshift_fftfreq_getElem (n m : ℕ) (hm : n = 2 * m) (fs : ℚ)
    (i : ℕ) (hi : i < n) :
    (fftshift (fftfreq n fs))[i]? = some (((i : ℚ) - m) * fs / n) := by
  rw [fftshift_fftfreq_even n m hm fs, List.getElem?_map,
    List.getElem?_range hi]
  rfl

/-- Shape of a successful `welch`-based PSD refresh. -/
theorem refreshPsd_ok (log10 : ℚ → ℚ) (w : PlotW) (bufLen : ℕ)
    (pow : List ℚ) (hbuf : w.windowLen ≤ bufLen) :
    refreshPsd log10 w bufLen pow =
      .ok (fftshift (fftfreq w.fftsize w.sampleRate),
           fftshift (pow.map fun p => 10 * log10 |p|)) := by
  unfold refreshPsd welch
  rw [if_neg (by omega)]

/-- Shape of a successful spectrogram refresh. -/
theorem refreshSpec_ok (log10 : ℚ → ℚ) (w : PlotW) (bufLen : ℕ)
    (specPow : List (List ℚ)) (hbuf : w.windowLen ≤ bufLen) :
    refreshSpec log10 w bufLen specPow =
      .ok (fftshift (fftfreq w.fftsize w.sampleRate),
           fftshift (specPow.map fun row => row.map fun p => 10 * log10 |p|)) := by
  unfold refreshSpec scipySpectrogram
  rw [if_neg (by omega)]

theorem supported_sizes_even : ∀ x ∈ supportedFFTSizes, x = 2 * (x / 2) ∧ 0 < x / 2 := by
  decide

/-- C8 counterexample: a *non-empty* buffer of a single sample, with the
supported FFT size 128, makes both `welch` and `spectrogram` raise
(window longer than input) instead of producing a frequency axis, so the
claim quantified over every non-empty buffer fails. -/
theorem c8_counterexample :
    128 ∈ supportedFFTSizes ∧
    refreshPsd (fun _ => 0) (setFFT PlotW.default 128) 1
      (List.replicate 128 0) = .error .windowLongerThanInput ∧
    refreshSpec (fun _ => 0) (setFFT PlotW.default 128) 1
      (List.replicate 128 []) = .error .windowLongerThanInput := by
  refine ⟨by decide, by decide, by decide⟩

/-- C8 (amended): for every sample buffer at least as long as the FFT
size and every size in the supported set, the PSD and the spectrogram
succeed and share a two-sided zero-centered frequency axis — entry `i` is
`(i - n/2) * fs / n`, negative on the first half, zero at `n/2`,
non-negative afterwards — the magnitudes are the decibel conversion
`10 * log10 |P|` of the (shifted) power estimates, and the PSD frequency
axis and magnitude curve have equal length `n`. -/
theorem c8_spectral_axes (log10 : ℚ → ℚ) (n bufLen : ℕ) (fs : ℚ)
    (pow : List ℚ) (specPow : List (List ℚ)) (w : PlotW)
    (hn : n ∈ supportedFFTSizes)
    (hsize : w.fftsize = n) (hwin : w.windowLen = n) (hrate : w.sampleRate = fs)
    (hfs : 0 < fs) (hbuf : n ≤ bufLen)
    (hpow : pow.length = n) (hspec : specPow.length = n) :
    ∃ axis mag matrix,
      refreshPsd log10 w bufLen pow = .ok (axis, mag) ∧
      refreshSpec log10 w bufLen specPow = .ok (axis, matrix) ∧
      axis.length = n ∧ mag.length = n ∧ matrix.length = n ∧
      (∀ i, i < n → axis[i]? = some (((i : ℚ) - (n / 2 : ℕ)) * fs / n)) ∧
      (∀ i, i < n / 2 → ((i : ℚ) - (n / 2 : ℕ)) * fs / n < 0) ∧
      (∀ i, n / 2 ≤ i → i < n → 0 ≤ ((i : ℚ) - (n / 2 : ℕ)) * fs / n) ∧
      axis[n / 2]? = some 0 ∧
      (∀ i : ℕ, mag[i]? = ((fftshift pow)[i]?).map fun p => 10 * log10 |p|) ∧
      (∀ i : ℕ, matrix[i]? =
        ((fftshift specPow)[i]?).map (List.map fun p => 10 * log10 |p|)) := by
  obtain ⟨hm, hmpos⟩ := supported_sizes_even n hn
  have hn0 : 0 < n := by omega
  have hnq : (0 : ℚ) < (n : ℚ) := by exact_mod_cast hn0
  refine ⟨fftshift (fftfreq n fs),
    fftshift (pow.map fun p => 10 * log10 |p|),
    fftshift (specPow.map fun row => row.map fun p => 10 * log10 |p|),
    ?_, ?_, ?_, ?_, ?_, ?_, ?_, ?_, ?_, ?_, ?_⟩
  · rw [refreshPsd_ok log10 w bufLen pow (by omega), hsize, hrate]
  · rw [refreshSpec_ok log10 w bufLen specPow (by omega), hsize, hrate]
  · rw [length_fftshift, length_fftfreq]
  · rw [length_fftshift, List.length_map, hpow]
  · rw [length_fftshift, List.length_map, hspec]
  · intro i hi
    exact fftshift_fftfreq_getElem n (n / 2) hm fs i hi
  · intro i hi
    have hneg : ((i : ℚ) - (n / 2 : ℕ)) < 0 := by
      have : (i : ℚ) < ((n / 2 : ℕ) : ℚ) := by exact_mod_cast hi
      linarith
    exact div_neg_of_neg_of_pos (mul_neg_of_neg_of_pos hneg hfs) hnq
  · intro i hi _
    have hge : (0 : ℚ) ≤ (i : ℚ) - ((n / 2 : ℕ) : ℚ) := by
      have : ((n / 2 : ℕ) : ℚ) ≤ (i : ℚ) := by exact_mod_cast hi
      linarith
    exact div_nonneg (mul_nonneg hge (le_of_lt hfs)) (le_of_lt hnq)
  · rw [fftshift_fftfreq_getElem n (n / 2) hm fs (n / 2) (by omega)]
    norm_num
  · intro i
    rw [fftshift_map, List.getElem?_map]
  · intro i
    rw [fftshift_map, List.getElem?_map]

/-- Witness for C8 (amended): FFT size 128 over a 128-sample buffer at
rate 1 produces equal-length zero-centered axes. -/
theorem c8_spectral_axes_witness :
    (128 ∈ supportedFFTSizes ∧ (0 : ℚ) < 1 ∧ 128 ≤ 128 ∧
      (List.replicate 128 (0 : ℚ)).length = 128 ∧
      (List.replicate 128 ([] : List ℚ)).length = 128) ∧
    (∃ axis mag matrix,
      refreshPsd (fun _ => 0) { fftsize := 128, windowLen := 128, sampleRate := 1 }
        128 (List.replicate 128 0) = .ok (axis, mag) ∧
      refreshSpec (fun _ => 0) { fftsize := 128, windowLen := 128, sampleRate := 1 }
        128 (List.replicate 128 []) = .ok (axis, matrix) ∧
      axis.length = 128 ∧ mag.length = 128 ∧ matrix.length = 128 ∧
      axis[64]? = some 0) := by
  have h := c8_spectral_axes (fun _ => 0) 128 128 1
    (List.replicate 128 0) (List.replicate 128 [])
    { fftsize := 128, windowLen := 128, sampleRate := 1 }
    (by decide) rfl rfl rfl (by norm_num) (by omega)
    (by simp) (by simp)
  obtain ⟨axis, mag, matrix, h1, h2, h3, h4, h5, _, _, _, h9, _⟩ := h
  exact ⟨⟨by decide, by norm_num, by omega, by simp, by simp⟩,
    axis, mag, matrix, h1, h2, h3, h4, h5, h9⟩

set_option maxRecDepth 8192 in
/-- C9 counterexample: loading the 100-sample `complex64` file succeeds
(buffer length 100), but the PSD computation with `fft_size = 256` and a
256-coefficient taper then *fails* (`window is longer than input
signal`), instead of yielding `(256,)` axes as claimed. -/
theorem c9_counterexample :
    (loadFile (fun _ => some (List.replicate 800 0)) DataSource.fresh
        (some "f") true).2 = none ∧
    ((loadFile (fun _ => some (List.replicate 800 0)) DataSource.fresh
        (some "f") true).1.data.map List.length) = some 100 ∧
    refreshPsd (fun _ => 0) (setFFT PlotW.default 256) 100 [] =
      .error .windowLongerThanInput := by
  refine ⟨by decide, by decide, by decide⟩

/-- C9 (amended): with `fft_size = 256` and a 256-coefficient taper the
PSD of a buffer of fewer than 256 samples (such as the 100-sample file)
fails with the window-longer-than-input error; for a buffer of at least
256 samples it succeeds with a `(256,)` frequency axis and a `(256,)`
magnitude array whose index range is symmetric around zero frequency. -/
theorem c9_psd_shapes (log10 : ℚ → ℚ) (pow : List ℚ) (bufLen : ℕ)
    (hbuf : 256 ≤ bufLen) (hpow : pow.length = 256) :
    ∃ axis mag,
      refreshPsd log10 (setFFT PlotW.default 256) bufLen pow = .ok (axis, mag) ∧
      axis.length = 256 ∧ mag.length = 256 ∧
      axis[128]? = some 0 ∧
      (∀ j : ℕ, j ≤ 127 →
        axis[128 + j]? = some ((j : ℚ) * 8000 / 256) ∧
        axis[128 - j]? = some (-((j : ℚ) * 8000 / 256))) := by
  refine ⟨fftshift (fftfreq 256 8000),
    fftshift (pow.map fun p => 10 * log10 |p|), ?_, ?_, ?_, ?_, ?_⟩
  · exact refreshPsd_ok log10 (setFFT PlotW.default 256) bufLen pow (by
      show (setFFT PlotW.default 256).windowLen ≤ bufLen
      simpa [setFFT, PlotW.default] using hbuf)
  · rw [length_fftshift, length_fftfreq]
  · rw [length_fftshift, List.length_map, hpow]
  · rw [fftshift_fftfreq_getElem 256 128 (by norm_num) 8000 128 (by norm_num)]
    norm_num
  · intro j hj
    constructor
    · rw [fftshift_fftfreq_getElem 256 128 (by norm_num) 8000 (128 + j) (by omega)]
      congr 1
      push_cast
      ring
    · rw [fftshift_fftfreq_getElem 256 128 (by norm_num) 8000 (128 - j) (by omega)]
      congr 1
      have hcast : ((128 - j : ℕ) : ℚ) = 128 - (j : ℚ) := by
        have : j ≤ 128 := by omega
        push_cast [this]
        ring
      rw [hcast]
      push_cast
      ring

/-- Witness for C9 (amended): a 256-sample buffer with `fft_size = 256`
yields `(256,)` axes with `axis[128] = 0`. -/
theorem c9_psd_shapes_witness :
    (256 ≤ 256 ∧ (List.replicate 256 (0 : ℚ)).length = 256) ∧
    (∃ axis mag,
      refreshPsd (fun _ => 0) (setFFT PlotW.default 256) 256
        (List.replicate 256 0) = .ok (axis, mag) ∧
      axis.length = 256 ∧ mag.length = 256 ∧ axis[128]? = some 0) := by
  have h := c9_psd_shapes (fun _ => 0) (List.replicate 256 0) 256
    (by omega) (by rw [List.length_replicate])
  obtain ⟨axis, mag, h1, h2, h3, h4, _⟩ := h
  exact ⟨⟨by omega, by rw [List.length_replicate]⟩, axis, mag, h1, h2, h3, h4⟩

/-- Data-type preservation of `load_file` (helper for the frame claim). -/
theorem loadFile_dataType (fs : FS) (ds : DataSource) (path : Option String)
    (reset : Bool) : ((loadFile fs ds path reset).1).dataType = ds.dataType := by
  cases path with
  | none => rfl
  | some p =>
    cases hfs : fs p with
    | none => simp [loadFile, hfs]
    | some bytes =>
      cases hr : fileRange ds bytes.length reset with
      | error e => simp [loadFile, hfs, hr]
      | ok se =>
        obtain ⟨s, e⟩ := se
        by_cases hoff : s * ((ds.dataType.itemsize : ℕ) : ℤ) < 0 <;>
          simp [loadFile, hfs, hr, hoff]

/-- Data-type preservation of the `start` setter (helper). -/
theorem setStart_dataType (fs : FS) (ds : DataSource) (v : ℤ) :
    ((setStart fs ds v).1).dataType = ds.dataType := by
  rcases hr : loadFile fs { ds with start := v } ds.source_path false
    with ⟨ds2, oe⟩
  have hd2 : ds2.dataType = ds.dataType := by
    have h := loadFile_dataType fs { ds with start := v } ds.source_path false
    rw [hr] at h
    exact h
  cases oe with
  | none =>
    have hs : setStart fs ds v = (ds2, none) := by
      simp only [setStart, reloadFile]
      rw [hr]
    rw [hs]
    exact hd2
  | some e' =>
    have hs : setStart fs ds v = ({ ds2 with start := ds.start }, some e') := by
      simp only [setStart, reloadFile]
      rw [hr]
    rw [hs]
    exact hd2

/-- Data-type preservation of the `end` setter (helper). -/
theorem setEnd_dataType (fs : FS) (ds : DataSource) (v : ℤ) :
    ((setEnd fs ds v).1).dataType = ds.dataType := by
  rcases hr : loadFile fs { ds with end_ := v } ds.source_path false
    with ⟨ds2, oe⟩
  have hd2 : ds2.dataType = ds.dataType := by
    have h := loadFile_dataType fs { ds with end_ := v } ds.source_path false
    rw [hr] at h
    exact h
  cases oe with
  | none =>
    have hs : setEnd fs ds v = (ds2, none) := by
      simp only [setEnd, reloadFile]
      rw [hr]
    rw [hs]
    exact hd2
  | some e' =>
    have hs : setEnd fs ds v = ({ ds2 with end_ := ds.end_ }, some e') := by
      simp only [setEnd, reloadFile]
      rw [hr]
    rw [hs]
    exact hd2

/-- C10: the on-disk record type is fixed at construction to `complex64`
(8-byte records, the width used for all record-count and byte-offset
arithmetic) and none of the public operations — `load_file`,
`reload_file`, the `start`/`end` setters — ever changes it. -/
theorem c10_dtype_frame :
    DataSource.fresh.dataType = DType.complex64 ∧
    DType.complex64.itemsize = 8 ∧
    (∀ (fs : FS) (ds : DataSource) (path : Option String) (reset : Bool),
      ((loadFile fs ds path reset).1).dataType = ds.dataType) ∧
    (∀ (fs : FS) (ds : DataSource),
      ((reloadFile fs ds).1).dataType = ds.dataType) ∧
    (∀ (fs : FS) (ds : DataSource) (v : ℤ),
      ((setStart fs ds v).1).dataType = ds.dataType) ∧
    (∀ (fs : FS) (ds : DataSource) (v : ℤ),
      ((setEnd fs ds v).1).dataType = ds.dataType) := by
  refine ⟨rfl, rfl, loadFile_dataType, ?_, setStart_dataType, setEnd_dataType⟩
  intro fs ds
  unfold reloadFile
  exact loadFile_dataType fs ds ds.source_path false

end Grplot
